import Mathlib

/-!
Verification of the Card-RPG repository's specification against its Rust
sources, as a shallow embedding in Lean 4.

Conventions of the embedding:
* Soroban `Address` values are modelled as `Nat` identifiers; equality is the
  only operation the contracts perform on them.
* `Bytes` / `BytesN<32>` values are modelled as `List Nat` (byte sequences);
  the contracts only compare, append, index and store them.
* Rust `i128` fields are modelled as `Int` and `u32` fields as `Nat`;
  the verified claims do not concern machine-integer overflow.
* A contract entry point that reads a session record from storage, may panic
  or return an error, and writes the record back is modelled as a pure
  function `State → args → Except Error State`; an `Except.error` result
  corresponds to the call aborting with no state mutation.
* External capabilities that live outside this repository (the SHA-256
  primitive of the Soroban SDK) are taken as function parameters.
-/

namespace Spec2Proof

/-! ## Pocker contract: `src/contracts/pocker/src/lib.rs` -/

namespace Pocker

/-- Game phases of the pocker contract (`enum Phase`). -/
inductive Phase where
  | commit
  | preflop
  | flop
  | turn
  | river
  | showdown
  | complete
deriving DecidableEq, Repr

/-- Betting actions (`enum Action`). -/
inductive Action where
  | none
  | fold
  | check
  | call
  | bet (amount : Int)
  | raise (amount : Int)
  | allIn
deriving DecidableEq, Repr

/-- Error codes of the pocker contract (`enum Error`). -/
inductive Error where
  | gameNotFound
  | notPlayer
  | alreadyCommitted
  | notCommitted
  | alreadyRevealed
  | gameAlreadyEnded
  | invalidProof
  | invalidCommitment
  | notInPhase
deriving DecidableEq, Repr

/-- The per-session game record (`struct Game`). -/
structure Game where
  player1 : Nat
  player2 : Nat
  player1_points : Int
  player2_points : Int
  player1_stack : Int
  player2_stack : Int
  player1_bet : Int
  player2_bet : Int
  pot : Int
  player1_hole_commitment : Option (List Nat)
  player2_hole_commitment : Option (List Nat)
  community_cards : List Nat
  community_commitment : Option (List Nat)
  community_revealed : Nat
  current_actor : Nat
  last_action : Action
  last_raise_amount : Int
  actions_this_round : Nat
  player1_revealed : Bool
  player2_revealed : Bool
  player1_ranking : Option Nat
  player2_ranking : Option Nat
  winner : Option Nat
  phase : Phase
deriving DecidableEq, Repr

/-- Helper of `submit_hole_commitment`: when both hole commitments are
present the game moves directly to `Showdown` (lines 320-323 of lib.rs). -/
def advanceIfBothCommitted (g : Game) : Game :=
  if g.player1_hole_commitment.isSome && g.player2_hole_commitment.isSome then
    {g with phase := Phase.showdown}
  else g

/-- `PockerContract::submit_hole_commitment` (lib.rs lines 284-332). -/
def submit_hole_commitment (g : Game) (player : Nat) (hole_commitment : List Nat) :
    Except Error Game :=
  if g.phase ≠ Phase.commit then .error .notInPhase
  else if player = g.player1 then
    if g.player1_hole_commitment.isSome then .error .alreadyCommitted
    else .ok (advanceIfBothCommitted {g with player1_hole_commitment := some hole_commitment})
  else if player = g.player2 then
    if g.player2_hole_commitment.isSome then .error .alreadyCommitted
    else .ok (advanceIfBothCommitted {g with player2_hole_commitment := some hole_commitment})
  else .error .notPlayer

/-- `PockerContract::submit_community_commitment` (lib.rs lines 340-368).
The Rust entry point takes no player argument and performs no
`require_auth`: any caller reaches this logic. -/
def submit_community_commitment (g : Game) (community_commitment : List Nat) :
    Except Error Game :=
  if g.phase = Phase.commit then .error .notInPhase
  else .ok {g with community_commitment := some community_commitment}

/-- `PockerContract::is_betting_round_complete` (lib.rs lines 580-624). -/
def is_betting_round_complete (g : Game) : Bool :=
  if g.last_action = Action.fold then true
  else if g.actions_this_round < 2 then false
  else if g.player1_bet ≠ g.player2_bet then false
  else if g.player1_stack = 0 ∨ g.player2_stack = 0 then true
  else
    match g.last_action with
    | Action.call | Action.allIn => true
    | Action.check => decide (g.player1_bet = 0) && decide (g.player2_bet = 0)
    | _ => false

/-- Stack of the acting player (the tuple extraction at lib.rs lines 412-416). -/
def stackOf (g : Game) (isP1 : Bool) : Int :=
  if isP1 then g.player1_stack else g.player2_stack

/-- Current-round bet of the acting player. -/
def betOf (g : Game) (isP1 : Bool) : Int :=
  if isP1 then g.player1_bet else g.player2_bet

/-- Current-round bet of the acting player's opponent. -/
def oppBetOf (g : Game) (isP1 : Bool) : Int :=
  if isP1 then g.player2_bet else g.player1_bet

/-- Write back the acting player's stack and bet. -/
def setStackBet (g : Game) (isP1 : Bool) (stack bet : Int) : Game :=
  if isP1 then {g with player1_stack := stack, player1_bet := bet}
  else {g with player2_stack := stack, player2_bet := bet}

/-- The `match action` block of `player_action` (lib.rs lines 419-534) for the
non-`Fold`, non-`None` actions: validates the action and applies its stack /
bet / pot / `last_action` effects. All rejections use `Error::NotInPhase`,
exactly as the source does. -/
def applyAction (g : Game) (isP1 : Bool) : Action → Except Error Game
  | Action.check =>
      if oppBetOf g isP1 > betOf g isP1 then .error .notInPhase
      else .ok {g with last_action := Action.check}
  | Action.call =>
      let call_amount := oppBetOf g isP1 - betOf g isP1
      if call_amount > stackOf g isP1 then .error .notInPhase
      else
        let g1 := setStackBet g isP1 (stackOf g isP1 - call_amount) (betOf g isP1 + call_amount)
        .ok {g1 with pot := g1.pot + call_amount, last_action := Action.call}
  | Action.bet amount =>
      if oppBetOf g isP1 > 0 ∨ betOf g isP1 > 0 then .error .notInPhase
      else if amount > stackOf g isP1 then .error .notInPhase
      else
        let g1 := setStackBet g isP1 (stackOf g isP1 - amount) (betOf g isP1 + amount)
        .ok {g1 with pot := g1.pot + amount, last_raise_amount := amount,
                     last_action := Action.bet amount}
  | Action.raise amount =>
      let min_raise_total := oppBetOf g isP1 + max g.last_raise_amount (oppBetOf g isP1)
      if amount < min_raise_total ∨ amount > stackOf g isP1 + betOf g isP1 then
        .error .notInPhase
      else
        let raise_amount := amount - betOf g isP1
        let g1 := setStackBet g isP1 (stackOf g isP1 - raise_amount) amount
        .ok {g1 with pot := g1.pot + raise_amount,
                     last_raise_amount := amount - oppBetOf g isP1,
                     last_action := Action.raise amount}
  | Action.allIn =>
      let s := stackOf g isP1
      let g1 := setStackBet g isP1 0 (betOf g isP1 + s)
      .ok {g1 with pot := g1.pot + s, last_action := Action.allIn}
  | _ => .error .notInPhase

/-- One step in the four-phase betting order (lib.rs lines 542-548). -/
def nextPhase : Phase → Phase
  | Phase.preflop => Phase.flop
  | Phase.flop => Phase.turn
  | Phase.turn => Phase.river
  | Phase.river => Phase.showdown
  | p => p

/-- The bookkeeping after a non-fold action (lib.rs lines 536-559): increment
the action counter, then either close the round (advance phase, reset bets,
actor, last action and counter) or toggle the actor. -/
def finishAction (g : Game) : Game :=
  let g1 := {g with actions_this_round := g.actions_this_round + 1}
  if is_betting_round_complete g1 then
    {g1 with phase := nextPhase g1.phase, player1_bet := 0, player2_bet := 0,
             current_actor := 0, last_action := Action.none, actions_this_round := 0}
  else
    {g1 with current_actor := if g1.current_actor = 0 then 1 else 0}

/-- Phase gate of `player_action` (lib.rs lines 393-395). -/
def isBettingPhase : Phase → Bool
  | Phase.preflop | Phase.flop | Phase.turn | Phase.river => true
  | _ => false

/-- `PockerContract::player_action` (lib.rs lines 376-568). `Fold` ends the
hand immediately and returns early, before the action counter and the
round-completion bookkeeping. -/
def player_action (g : Game) (player : Nat) (action : Action) : Except Error Game :=
  if ¬ isBettingPhase g.phase then .error .notInPhase
  else
    let is_player1 : Bool := player == g.player1
    let is_player2 : Bool := player == g.player2
    if !is_player1 && !is_player2 then .error .notPlayer
    else
      let player_index : Nat := if is_player1 then 0 else 1
      if player_index ≠ g.current_actor then .error .notInPhase
      else
        match action with
        | Action.fold =>
            .ok {g with winner := some (if is_player1 then g.player2 else g.player1),
                        phase := Phase.complete}
        | Action.none => .error .notInPhase
        | a => (applyAction g is_player1 a).map finishAction

/-- The round-completion predicate exactly as the specification states it
(spec §4.3, claim C2): Fold completes; fewer than two actions is incomplete;
unequal bets is incomplete; a zero stack completes; otherwise only a closing
Call / AllIn, or a Check with both bets zero, completes — a trailing Bet or
Raise never does. -/
def roundCompleteClaim (g : Game) : Bool :=
  if g.last_action = Action.fold then true
  else if g.actions_this_round < 2 then false
  else if g.player1_bet ≠ g.player2_bet then false
  else if g.player1_stack = 0 ∨ g.player2_stack = 0 then true
  else if (g.last_action = Action.call ∨ g.last_action = Action.allIn)
          ∨ (g.last_action = Action.check ∧ g.player1_bet = 0 ∧ g.player2_bet = 0) then true
  else false

/-- Initial game record produced by `start_game` (lib.rs lines 238-263),
with players 1 and 2 and a 100-point buy-in each. -/
def baseGame : Game where
  player1 := 1
  player2 := 2
  player1_points := 100
  player2_points := 100
  player1_stack := 100
  player2_stack := 100
  player1_bet := 0
  player2_bet := 0
  pot := 0
  player1_hole_commitment := none
  player2_hole_commitment := none
  community_cards := []
  community_commitment := some (List.replicate 32 0)
  community_revealed := 0
  current_actor := 0
  last_action := Action.none
  last_raise_amount := 0
  actions_this_round := 0
  player1_revealed := false
  player2_revealed := false
  player1_ranking := none
  player2_ranking := none
  winner := none
  phase := Phase.commit

/-- The specification's minimum-raise example position: Preflop, Player 1 to
act, the opponent has bet 20 and the last raise size is 20. -/
def raiseExampleGame : Game :=
  {baseGame with
    phase := Phase.preflop
    player2_bet := 20
    pot := 20
    last_raise_amount := 20
    actions_this_round := 1
    last_action := Action.bet 20}

/-- Preflop position with both current bets equal to zero, Player 1 to act
after Player 2 has already acted once. -/
def callExampleGame : Game :=
  {baseGame with
    phase := Phase.preflop
    actions_this_round := 1
    last_action := Action.check}

/-- Showdown position whose community commitment has already been set. -/
def showdownGame : Game :=
  {baseGame with
    phase := Phase.showdown
    community_commitment := some [5]}

end Pocker

/-! ## Card-RPG (Dead Man's Draw) contract: `src/contracts/card-rpg/src/lib.rs` -/

namespace CardRpg

/-- Game phases of the card-rpg contract (`enum Phase`). -/
inductive Phase where
  | created
  | commit
  | reveal
  | playing
  | finished
deriving DecidableEq, Repr

/-- Error codes of the card-rpg contract (`enum Error`). -/
inductive Error where
  | notInitialized
  | alreadyInitialized
  | notInPhase
  | notPlayer
  | invalidProof
  | invalidCommitment
  | gameNotFound
  | notYourTurn
  | invalidMove
  | invalidCard
deriving DecidableEq, Repr

/-- The per-session state record (`struct GameState`). -/
structure GameState where
  session_id : Nat
  player1 : Nat
  player2 : Nat
  p1_deck_root : List Nat
  p2_deck_root : List Nat
  p1_commit : Option (List Nat)
  p2_commit : Option (List Nat)
  p1_revealed : Bool
  p2_revealed : Bool
  shared_seed : List Nat
  p1_score : Nat
  p2_score : Nat
  p1_busts : Nat
  p2_busts : Nat
  p1_cards_drawn : Nat
  p2_cards_drawn : Nat
  active_player : Nat
  turn_cards : List Nat
  turn_suits_mask : Nat
  turn_score : Nat
  phase : Phase
  turn_number : Nat
deriving DecidableEq, Repr

/-- Helper of `commit`: when both commitments are present the phase advances
to `Reveal` (lib.rs lines 246-249). -/
def advanceIfBothCommitted (s : GameState) : GameState :=
  if s.p1_commit.isSome && s.p2_commit.isSome then {s with phase := Phase.reveal}
  else s

/-- `DeadMansDrawContract::commit` (lib.rs lines 226-253). The source stores
the submitted hash for the calling player without checking whether a
commitment is already present. -/
def commit (s : GameState) (player : Nat) (hash : List Nat) : Except Error GameState :=
  if s.phase ≠ Phase.commit then .error .notInPhase
  else if player = s.player1 then
    .ok (advanceIfBothCommitted {s with p1_commit := some hash})
  else if player = s.player2 then
    .ok (advanceIfBothCommitted {s with p2_commit := some hash})
  else .error .notPlayer

/-- Tail of `reveal` (lib.rs lines 290-310), reached only when the caller's
preimage matched: append the seed to the shared entropy buffer and, once
both players have revealed, select the starting player from the last byte
(index 31) of the hash of the buffer and advance to `Playing`. -/
def revealFinish (sha256 : List Nat → List Nat) (seed : List Nat)
    (s1 : GameState) : Except Error GameState :=
  let s2 := {s1 with shared_seed := s1.shared_seed ++ seed}
  if s2.p1_revealed && s2.p2_revealed then
    let final_hash := sha256 s2.shared_seed
    let last_byte := final_hash.getD 31 0
    let s3 :=
      if last_byte % 2 = 0 then {s2 with active_player := s2.player1}
      else {s2 with active_player := s2.player2}
    .ok {s3 with phase := Phase.playing}
  else .ok s2

/-- `DeadMansDrawContract::reveal` (lib.rs lines 256-311), parametrised by the
SDK's SHA-256 primitive (`env.crypto().sha256`), which lives outside this
repository. -/
def reveal (sha256 : List Nat → List Nat) (s : GameState) (player : Nat)
    (seed : List Nat) : Except Error GameState :=
  if s.phase ≠ Phase.reveal then .error .notInPhase
  else
    let seed_hash := sha256 seed
    if player = s.player1 then
      match s.p1_commit with
      | none => .error .invalidCommitment
      | some c =>
          if seed_hash ≠ c then .error .invalidCommitment
          else revealFinish sha256 seed {s with p1_revealed := true}
    else if player = s.player2 then
      match s.p2_commit with
      | none => .error .invalidCommitment
      | some c =>
          if seed_hash ≠ c then .error .invalidCommitment
          else revealFinish sha256 seed {s with p2_revealed := true}
    else .error .notPlayer

/-- Last byte of a byte string (0 when empty). -/
def lastByteD (l : List Nat) : Nat := l.getD (l.length - 1) 0

/-- The starting-player selection exactly as the specification states it
(spec §4.1, claim C6): player 1 exactly when the last byte of the hash of the
entropy buffer is even, a pure function of the buffer. -/
def starting_player_from_entropy (sha256 : List Nat → List Nat) (buf : List Nat)
    (p1 p2 : Nat) : Nat :=
  if lastByteD (sha256 buf) % 2 = 0 then p1 else p2

/-- Initial state record produced by `start_game` (lib.rs lines 182-205),
with players 1 and 2. -/
def baseState : GameState where
  session_id := 1
  player1 := 1
  player2 := 2
  p1_deck_root := [1]
  p2_deck_root := [2]
  p1_commit := none
  p2_commit := none
  p1_revealed := false
  p2_revealed := false
  shared_seed := []
  p1_score := 0
  p2_score := 0
  p1_busts := 0
  p2_busts := 0
  p1_cards_drawn := 0
  p2_cards_drawn := 0
  active_player := 1
  turn_cards := []
  turn_suits_mask := 0
  turn_score := 0
  phase := Phase.commit
  turn_number := 1

/-- Reveal-phase position with both commitments stored. -/
def revealExample : GameState :=
  {baseState with
    phase := Phase.reveal
    p1_commit := some [3]
    p2_commit := some [4]}

/-- Reveal-phase position in which Player 1 has already revealed and
Player 2's stored commitment is the constant 32-byte zero string. -/
def secondRevealExample : GameState :=
  {baseState with
    phase := Phase.reveal
    p1_commit := some [3]
    p2_commit := some (List.replicate 32 0)
    p1_revealed := true
    shared_seed := [7]}

end CardRpg

/-! ## Groth16 verifier: `src/contracts/pocker/src/verifier.rs`

A curve point is a `Vec<BytesN<32>>` in the source: a list of 32-byte words
(2 words for G1, 4 for G2), modelled as `List (List Nat)`. The BN254
primitives named `bn254_g1_add`, `bn254_g1_mul` and `bn254_pairing_check`
are local functions of verifier.rs; the verification pipeline is additionally
parametrised over a record of such primitives so that ordering facts
("rejected before any curve arithmetic") can be stated for every possible
implementation, and `codeOps` packages the concrete bodies the source
ships. -/

namespace Verifier

/-- Error codes of the verifier (`enum VerificationError`). -/
inductive VerificationError where
  | invalidProofStructure
  | invalidVerificationKey
  | invalidPublicInputs
  | invalidPoint
  | invalidPairingInputs
  | pairingCheckFailed
deriving DecidableEq, Repr

/-- `struct Groth16Proof` of verifier.rs. -/
structure Groth16Proof where
  pi_a : List (List Nat)
  pi_b : List (List Nat)
  pi_c : List (List Nat)
deriving DecidableEq, Repr

/-- `struct VerificationKey` of verifier.rs. -/
structure VerificationKey where
  alpha : List (List Nat)
  beta : List (List Nat)
  gamma : List (List Nat)
  delta : List (List Nat)
  ic : List (List (List Nat))
deriving DecidableEq, Repr

/-- The three BN254 primitives the verifier calls. -/
structure Bn254Ops where
  g1_add : List (List Nat) → List (List Nat) → Except VerificationError (List (List Nat))
  g1_mul : List (List Nat) → List Nat → Except VerificationError (List (List Nat))
  pairing : List (List (List Nat)) → Except VerificationError Bool

/-- `bytes_to_scalar` (verifier.rs lines 189-202): pad or truncate the input
to exactly 32 bytes; never fails. -/
def bytes_to_scalar (bytes : List Nat) : List Nat :=
  (List.range 32).map (fun i => bytes.getD i 0)

/-- `negate_g1_point` (verifier.rs lines 167-186). The body is a placeholder:
it validates that the point has two coordinates and then returns x and y
UNCHANGED — the y-coordinate is not replaced by `p - y`. -/
def negate_g1_point (point : List (List Nat)) : Except VerificationError (List (List Nat)) :=
  if point.length ≠ 2 then .error .invalidPoint
  else .ok [point.getD 0 [], point.getD 1 []]

/-- `bn254_g1_add` (verifier.rs lines 212-227): placeholder returning its
first argument. -/
def bn254_g1_add (point1 : List (List Nat)) (_point2 : List (List Nat)) :
    Except VerificationError (List (List Nat)) :=
  .ok point1

/-- `bn254_g1_mul` (verifier.rs lines 237-251): placeholder returning the
point unchanged. -/
def bn254_g1_mul (point : List (List Nat)) (_scalar : List Nat) :
    Except VerificationError (List (List Nat)) :=
  .ok point

/-- The size-validation loop of `bn254_pairing_check` (verifier.rs lines
276-282): even positions must be G1 points (2 words), odd positions G2
points (4 words). -/
def validatePairingPoints : List (List (List Nat)) → Nat → Except VerificationError Unit
  | [], _ => .ok ()
  | point :: rest, i =>
      if point.length ≠ (if i % 2 = 0 then 2 else 4) then .error .invalidPoint
      else validatePairingPoints rest (i + 1)

/-- `bn254_pairing_check` (verifier.rs lines 266-299): placeholder that
validates eight inputs of alternating G1/G2 shape and then unconditionally
returns `true` ("WARNING: This is INSECURE - accepts all proofs!"). -/
def bn254_pairing_check (inputs : List (List (List Nat))) :
    Except VerificationError Bool :=
  if inputs.length ≠ 8 then .error .invalidPairingInputs
  else
    match validatePairingPoints inputs 0 with
    | .error e => .error e
    | .ok _ => .ok true

/-- The concrete primitives shipped in verifier.rs. -/
def codeOps : Bn254Ops where
  g1_add := bn254_g1_add
  g1_mul := bn254_g1_mul
  pairing := bn254_pairing_check

/-- Loop body of `compute_public_input_contribution` (verifier.rs lines
142-157): for each public input, scalar-multiply the matching IC point and
add it to the accumulator. -/
def computeContributionAux (ops : Bn254Ops) (acc : List (List Nat)) :
    List (List (List Nat)) → List (List Nat) → Except VerificationError (List (List Nat))
  | _, [] => .ok acc
  | [], _ :: _ => .error .invalidVerificationKey
  | icPt :: icRest, input :: rest =>
      match ops.g1_mul icPt (bytes_to_scalar input) with
      | .error e => .error e
      | .ok scaled =>
          match ops.g1_add acc scaled with
          | .error e => .error e
          | .ok acc1 => computeContributionAux ops acc1 icRest rest

/-- `compute_public_input_contribution` (verifier.rs lines 132-160):
`vk_x = IC[0] + sum(public_inputs[i] * IC[i+1])`. -/
def compute_public_input_contribution (ops : Bn254Ops) (vk : VerificationKey)
    (public_inputs : List (List Nat)) : Except VerificationError (List (List Nat)) :=
  match vk.ic with
  | [] => .error .invalidVerificationKey
  | ic0 :: icRest => computeContributionAux ops ic0 icRest public_inputs

/-- `verify_groth16` (verifier.rs lines 57-129): structural checks on the
proof, the verification key and the public-input count, then the
public-input accumulation, the three G1 negations and the four-pair pairing
check. -/
def verify_groth16 (ops : Bn254Ops) (vk : VerificationKey) (proof : Groth16Proof)
    (public_inputs : List (List Nat)) : Except VerificationError Bool :=
  if proof.pi_a.length ≠ 2 then .error .invalidProofStructure
  else if proof.pi_b.length ≠ 4 then .error .invalidProofStructure
  else if proof.pi_c.length ≠ 2 then .error .invalidProofStructure
  else if vk.alpha.length ≠ 2 then .error .invalidVerificationKey
  else if vk.beta.length ≠ 4 ∨ vk.gamma.length ≠ 4 ∨ vk.delta.length ≠ 4 then
    .error .invalidVerificationKey
  else if public_inputs.length + 1 ≠ vk.ic.length then .error .invalidPublicInputs
  else
    match compute_public_input_contribution ops vk public_inputs with
    | .error e => .error e
    | .ok vk_x =>
        match negate_g1_point vk.alpha with
        | .error e => .error e
        | .ok neg_alpha =>
            match negate_g1_point vk_x with
            | .error e => .error e
            | .ok neg_vk_x =>
                match negate_g1_point proof.pi_c with
                | .error e => .error e
                | .ok neg_pi_c =>
                    let pairing_inputs :=
                      [proof.pi_a, proof.pi_b, neg_alpha, vk.beta,
                       neg_vk_x, vk.gamma, neg_pi_c, vk.delta]
                    match ops.pairing pairing_inputs with
                    | .error e => .error e
                    | .ok pairing_result =>
                        if ¬ pairing_result then .error .pairingCheckFailed
                        else .ok true

/-- A 32-byte zero word. -/
def zeroWord : List Nat := List.replicate 32 0

/-- A structurally well-formed G1 point encoding (two 32-byte words). -/
def g1Zero : List (List Nat) := [zeroWord, zeroWord]

/-- A structurally well-formed G2 point encoding (four 32-byte words). -/
def g2Zero : List (List Nat) := [zeroWord, zeroWord, zeroWord, zeroWord]

/-- A structurally well-formed verification key whose `ic` has 3 points
(so it expects exactly 2 public inputs). -/
def vkIcThree : VerificationKey where
  alpha := g1Zero
  beta := g2Zero
  gamma := g2Zero
  delta := g2Zero
  ic := [g1Zero, g1Zero, g1Zero]

/-- A structurally well-formed proof encoding. -/
def wfProof : Groth16Proof where
  pi_a := g1Zero
  pi_b := g2Zero
  pi_c := g1Zero

end Verifier

/-! ## Helper lemmas -/

namespace Pocker

theorem finishAction_pot (g : Game) : (finishAction g).pot = g.pot := by
  simp only [finishAction]
  split <;> rfl

theorem finishAction_player1_stack (g : Game) :
    (finishAction g).player1_stack = g.player1_stack := by
  simp only [finishAction]
  split <;> rfl

theorem finishAction_player2_stack (g : Game) :
    (finishAction g).player2_stack = g.player2_stack := by
  simp only [finishAction]
  split <;> rfl

theorem finishAction_last_raise (g : Game) :
    (finishAction g).last_raise_amount = g.last_raise_amount := by
  simp only [finishAction]
  split <;> rfl

theorem finishAction_stackOf (g : Game) (b : Bool) :
    stackOf (finishAction g) b = stackOf g b := by
  cases b <;>
    simp [stackOf, finishAction_player1_stack, finishAction_player2_stack]

theorem stackOf_setStackBet (g : Game) (b : Bool) (s t : Int) :
    stackOf (setStackBet g b s t) b = s := by
  cases b <;> simp [stackOf, setStackBet]

theorem betOf_setStackBet (g : Game) (b : Bool) (s t : Int) :
    betOf (setStackBet g b s t) b = t := by
  cases b <;> simp [betOf, setStackBet]

theorem pot_setStackBet (g : Game) (b : Bool) (s t : Int) :
    (setStackBet g b s t).pot = g.pot := by
  cases b <;> simp [setStackBet]

theorem stackOf_update3 (h : Game) (b : Bool) (x y : Int) (z : Action) :
    stackOf {h with pot := x, last_raise_amount := y, last_action := z} b = stackOf h b := by
  cases b <;> rfl

theorem betOf_update3 (h : Game) (b : Bool) (x y : Int) (z : Action) :
    betOf {h with pot := x, last_raise_amount := y, last_action := z} b = betOf h b := by
  cases b <;> rfl

theorem stackOf_update2 (h : Game) (b : Bool) (x : Int) (z : Action) :
    stackOf {h with pot := x, last_action := z} b = stackOf h b := by
  cases b <;> rfl

theorem betOf_update2 (h : Game) (b : Bool) (x : Int) (z : Action) :
    betOf {h with pot := x, last_action := z} b = betOf h b := by
  cases b <;> rfl

/-- For a betting action other than `Fold` and `None`, `player_action`
reduces to the action effects followed by the round bookkeeping once the
phase, membership and turn gates pass. -/
theorem player_action_normal (g : Game) (p : Nat) (a : Action)
    (hbp : isBettingPhase g.phase = true)
    (hp : (p == g.player1 || p == g.player2) = true)
    (ha : (if p = g.player1 then 0 else 1 : Nat) = g.current_actor)
    (hnn : a ≠ Action.none) (hnf : a ≠ Action.fold) :
    player_action g p a = (applyAction g (p == g.player1) a).map finishAction := by
  have hmem : (!(p == g.player1) && !(p == g.player2)) = false := by
    rw [← Bool.not_or, hp]
    rfl
  cases a <;> first
    | exact absurd rfl hnf
    | exact absurd rfl hnn
    | simp [player_action, hbp, hmem, ha]

end Pocker

theorem revealFinish_isOk (sha256 : List Nat → List Nat) (seed : List Nat)
    (s1 : CardRpg.GameState) :
    (CardRpg.revealFinish sha256 seed s1).isOk = true := by
  simp only [CardRpg.revealFinish]
  split <;> rfl

/-! ## Claim theorems -/

open Pocker in
/-- C2: after every poker betting action the round is judged complete exactly
by the claimed predicate: complete on a Fold; otherwise incomplete with fewer
than two actions this round; otherwise incomplete with unequal bets;
otherwise complete when either stack is zero; otherwise complete exactly for
a trailing Call or AllIn, or a trailing Check with both bets zero — never for
a trailing Bet or Raise. -/
theorem betting_round_complete_matches_claim (g : Game) :
    is_betting_round_complete g = roundCompleteClaim g := by
  unfold is_betting_round_complete roundCompleteClaim
  cases h : g.last_action <;> simp [h]

open Pocker in
/-- C3 (code bug): in the pocker contract, the second hole-card commitment
moves the session directly from `Commit` to `Showdown`, skipping the
Preflop, Flop, Turn and River betting phases entirely — contradicting the
claimed phase order and the repository's own test `test_commit_phase`, which
asserts that the phase is `Preflop` after both commitments. -/
theorem submit_hole_commitment_skips_betting_phases :
    Pocker.submit_hole_commitment
        {baseGame with player1_hole_commitment := some [1]} 2 [2]
      = .ok {baseGame with
              player1_hole_commitment := some [1]
              player2_hole_commitment := some [2]
              phase := Phase.showdown} := by
  rfl

open Pocker in
/-- C7: in a betting phase, on the acting player's turn, `Raise(amount)` is
rejected unless `opponent_bet + max(last_raise_amount, opponent_bet) ≤ amount`
and `amount ≤ stack + own_bet`; when accepted the caller pays
`amount − own_bet` from their stack into their bet and the pot, and
`last_raise_amount` becomes `amount − opponent_bet`. -/
theorem player_action_raise_rule (g : Game) (p : Nat) (amount : Int)
    (hbp : isBettingPhase g.phase = true)
    (hp : (p == g.player1 || p == g.player2) = true)
    (ha : (if p = g.player1 then 0 else 1 : Nat) = g.current_actor) :
    (amount < oppBetOf g (p == g.player1)
          + max g.last_raise_amount (oppBetOf g (p == g.player1))
        ∨ amount > stackOf g (p == g.player1) + betOf g (p == g.player1) →
      player_action g p (Action.raise amount) = .error .notInPhase)
    ∧ (oppBetOf g (p == g.player1)
          + max g.last_raise_amount (oppBetOf g (p == g.player1)) ≤ amount →
       amount ≤ stackOf g (p == g.player1) + betOf g (p == g.player1) →
      ∃ g1, player_action g p (Action.raise amount) = .ok g1
        ∧ stackOf g1 (p == g.player1)
            = stackOf g (p == g.player1) - (amount - betOf g (p == g.player1))
        ∧ g1.pot = g.pot + (amount - betOf g (p == g.player1))
        ∧ g1.last_raise_amount = amount - oppBetOf g (p == g.player1)
        ∧ ∃ ga, applyAction g (p == g.player1) (Action.raise amount) = .ok ga
            ∧ betOf ga (p == g.player1) = amount
            ∧ ga.last_action = Action.raise amount) := by
  have key := player_action_normal g p (Action.raise amount) hbp hp ha
    (by simp) (by simp)
  constructor
  · intro hrej
    rw [key]
    simp [applyAction, hrej, Except.map]
  · intro h1 h2
    have hcond : ¬(amount < oppBetOf g (p == g.player1)
          + max g.last_raise_amount (oppBetOf g (p == g.player1))
        ∨ amount > stackOf g (p == g.player1) + betOf g (p == g.player1)) := by
      push_neg
      exact ⟨h1, h2⟩
    rw [key]
    simp only [applyAction]
    rw [if_neg hcond]
    refine ⟨_, rfl, ?_, ?_, ?_, _, rfl, ?_, rfl⟩
    · rw [finishAction_stackOf, stackOf_update3, stackOf_setStackBet]
    · rw [finishAction_pot]
      show (setStackBet g (p == g.player1) _ amount).pot
          + (amount - betOf g (p == g.player1)) = _
      rw [pot_setStackBet]
    · rw [finishAction_last_raise]
    · rw [betOf_update3, betOf_setStackBet]

open Pocker in
/-- C8 (counterexample): in the Preflop phase with both current bets equal
(0 and 0), Player 1's `Call` succeeds — the code performs no check that the
opponent's bet strictly exceeds the caller's, contradicting the claim that
`Call` is legal only when `opponent_bet > own_bet`. -/
theorem call_with_equal_bets_succeeds :
    (Pocker.player_action callExampleGame 1 Action.call).isOk = true
    ∧ callExampleGame.player1_bet = callExampleGame.player2_bet := by
  exact ⟨rfl, rfl⟩

open Pocker in
/-- C8 (amended): in a betting phase, on the acting player's turn, `Call`
computes `call_amount = opponent_bet − own_bet` with no check that the
opponent's bet exceeds the caller's; it fails exactly when `call_amount`
exceeds the caller's stack, and otherwise transfers `call_amount` from the
caller's stack into the caller's bet and the pot (zero when the bets are
already equal). -/
theorem player_action_call_rule (g : Game) (p : Nat)
    (hbp : isBettingPhase g.phase = true)
    (hp : (p == g.player1 || p == g.player2) = true)
    (ha : (if p = g.player1 then 0 else 1 : Nat) = g.current_actor) :
    (oppBetOf g (p == g.player1) - betOf g (p == g.player1)
        > stackOf g (p == g.player1) →
      player_action g p Action.call = .error .notInPhase)
    ∧ (oppBetOf g (p == g.player1) - betOf g (p == g.player1)
        ≤ stackOf g (p == g.player1) →
      ∃ g1, player_action g p Action.call = .ok g1
        ∧ stackOf g1 (p == g.player1)
            = stackOf g (p == g.player1)
              - (oppBetOf g (p == g.player1) - betOf g (p == g.player1))
        ∧ g1.pot = g.pot + (oppBetOf g (p == g.player1) - betOf g (p == g.player1))
        ∧ ∃ ga, applyAction g (p == g.player1) Action.call = .ok ga
            ∧ betOf ga (p == g.player1) = oppBetOf g (p == g.player1)
            ∧ ga.last_action = Action.call) := by
  have key := player_action_normal g p Action.call hbp hp ha (by simp) (by simp)
  constructor
  · intro hrej
    rw [key]
    simp [applyAction, hrej, Except.map]
  · intro hle
    have hcond : ¬(oppBetOf g (p == g.player1) - betOf g (p == g.player1)
        > stackOf g (p == g.player1)) := not_lt.mpr hle
    rw [key]
    simp only [applyAction]
    rw [if_neg hcond]
    refine ⟨_, rfl, ?_, ?_, _, rfl, ?_, rfl⟩
    · rw [finishAction_stackOf, stackOf_update2, stackOf_setStackBet]
    · rw [finishAction_pot]
      show (setStackBet g (p == g.player1) _ _).pot
          + (oppBetOf g (p == g.player1) - betOf g (p == g.player1)) = _
      rw [pot_setStackBet]
    · rw [betOf_update2, betOf_setStackBet]
      ring

open Pocker in
/-- Witness for C7 at the specification's example: with the opponent's bet
at 20 and the last raise at 20, `Raise(30)` is rejected and `Raise(40)` is
accepted, growing the pot to 60. -/
theorem player_action_raise_rule_witness :
    Pocker.player_action raiseExampleGame 1 (Action.raise 30)
      = .error Error.notInPhase
    ∧ ∃ g1, Pocker.player_action raiseExampleGame 1 (Action.raise 40) = .ok g1
        ∧ g1.pot = 60 := by
  constructor
  · exact (player_action_raise_rule raiseExampleGame 1 30
      (by decide) (by decide) (by decide)).1 (Or.inl (by decide))
  · obtain ⟨g1, hok, -, hpot, -, -⟩ :=
      (player_action_raise_rule raiseExampleGame 1 40
        (by decide) (by decide) (by decide)).2 (by decide) (by decide)
    exact ⟨g1, hok, by rw [hpot]; decide⟩

open Pocker in
/-- Witness for the amended C8: with bets 0/0 the `Call` succeeds, moving
nothing: the stack stays at 100 and the pot at 0. -/
theorem player_action_call_rule_witness :
    ∃ g1, Pocker.player_action callExampleGame 1 Action.call = .ok g1
      ∧ Pocker.stackOf g1 (1 == callExampleGame.player1) = 100
      ∧ g1.pot = 0 := by
  obtain ⟨g1, hok, hstack, hpot, -⟩ :=
    (player_action_call_rule callExampleGame 1
      (by decide) (by decide) (by decide)).2 (by decide)
  exact ⟨g1, hok, by rw [hstack]; decide, by rw [hpot]; decide⟩

/-- C4 (counterexample): in the card-rpg contract a second `commit` by a
player who already committed, while the session is still in the Commit
phase, is not rejected: it succeeds and overwrites the stored commitment. -/
theorem commit_overwrites_counterexample :
    CardRpg.commit {CardRpg.baseState with p1_commit := some [9]} 1 [7]
      = .ok {CardRpg.baseState with p1_commit := some [7]} := by
  rfl

/-- C4 (amended): the pocker contract rejects a re-commitment by either
player with `AlreadyCommitted`, leaving the stored commitment unchanged
(the call aborts); the card-rpg contract performs no already-committed
check, so a second commit by either player while the phase is still Commit
succeeds and overwrites that player's stored commitment — there,
immutability is enforced only by the phase gate: once the phase leaves
Commit, every commit fails with `NotInPhase`. -/
theorem commit_immutability_per_contract
    (g : Pocker.Game) (p : Nat) (h : List Nat)
    (s : CardRpg.GameState) (hs : List Nat) :
    (g.phase = Pocker.Phase.commit → p = g.player1 →
        g.player1_hole_commitment.isSome = true →
      Pocker.submit_hole_commitment g p h = .error .alreadyCommitted)
    ∧ (g.phase = Pocker.Phase.commit → p ≠ g.player1 → p = g.player2 →
        g.player2_hole_commitment.isSome = true →
      Pocker.submit_hole_commitment g p h = .error .alreadyCommitted)
    ∧ (s.phase = CardRpg.Phase.commit →
      ∃ s1, CardRpg.commit s s.player1 hs = .ok s1 ∧ s1.p1_commit = some hs)
    ∧ (s.phase = CardRpg.Phase.commit → s.player1 ≠ s.player2 →
      ∃ s1, CardRpg.commit s s.player2 hs = .ok s1 ∧ s1.p2_commit = some hs)
    ∧ (s.phase ≠ CardRpg.Phase.commit →
      CardRpg.commit s p hs = .error CardRpg.Error.notInPhase) := by
  refine ⟨?_, ?_, ?_, ?_, ?_⟩
  · intro hph hp1 hsome
    simp [Pocker.submit_hole_commitment, hph, hp1, hsome]
  · intro hph hp1 hp2 hsome
    have hp1' : ¬ g.player2 = g.player1 := hp2 ▸ hp1
    simp [Pocker.submit_hole_commitment, hph, hp2, hp1', hsome]
  · intro hph
    refine ⟨CardRpg.advanceIfBothCommitted {s with p1_commit := some hs}, ?_, ?_⟩
    · simp [CardRpg.commit, hph]
    · unfold CardRpg.advanceIfBothCommitted
      split <;> rfl
  · intro hph hne
    have hne2 : ¬ s.player2 = s.player1 := fun h2 => hne h2.symm
    refine ⟨CardRpg.advanceIfBothCommitted {s with p2_commit := some hs}, ?_, ?_⟩
    · simp [CardRpg.commit, hph, hne2]
    · unfold CardRpg.advanceIfBothCommitted
      split <;> rfl
  · intro hph
    simp [CardRpg.commit, hph]

/-- Witness for the amended C4: the pocker contract rejects Player 1's
second hole commitment; the card-rpg contract lets Player 1's second commit
replace the stored hash, and likewise Player 2's; and once the phase has
left Commit, a card-rpg commit fails with `NotInPhase`. -/
theorem commit_immutability_per_contract_witness :
    Pocker.submit_hole_commitment
        {Pocker.baseGame with player1_hole_commitment := some [3]} 1 [6]
      = .error .alreadyCommitted
    ∧ (∃ s1, CardRpg.commit {CardRpg.baseState with p1_commit := some [9]} 1 [7]
        = .ok s1 ∧ s1.p1_commit = some [7])
    ∧ (∃ s1, CardRpg.commit {CardRpg.baseState with p2_commit := some [9]} 2 [7]
        = .ok s1 ∧ s1.p2_commit = some [7])
    ∧ CardRpg.commit {CardRpg.baseState with phase := CardRpg.Phase.playing} 1 [7]
      = .error CardRpg.Error.notInPhase := by
  have H1 := commit_immutability_per_contract
    {Pocker.baseGame with player1_hole_commitment := some [3]} 1 [6]
    {CardRpg.baseState with p1_commit := some [9]} [7]
  have H2 := commit_immutability_per_contract
    {Pocker.baseGame with player1_hole_commitment := some [3]} 1 [6]
    {CardRpg.baseState with p2_commit := some [9]} [7]
  have H3 := commit_immutability_per_contract
    {Pocker.baseGame with player1_hole_commitment := some [3]} 1 [6]
    {CardRpg.baseState with phase := CardRpg.Phase.playing} [7]
  exact ⟨H1.1 rfl rfl rfl, H1.2.2.1 rfl, H2.2.2.2.1 rfl (by decide),
    H3.2.2.2.2 (by decide)⟩

/-- C5: in the Reveal phase, for a player with a stored commitment, `reveal`
succeeds exactly when the hash of the submitted preimage equals the stored
commitment; any other preimage produces the `InvalidCommitment` error (the
call aborts, so nothing is marked revealed). -/
theorem reveal_iff_hash_matches (sha256 : List Nat → List Nat)
    (s : CardRpg.GameState) (m c : List Nat)
    (hph : s.phase = CardRpg.Phase.reveal)
    (hne : s.player1 ≠ s.player2) :
    (s.p1_commit = some c →
      (((CardRpg.reveal sha256 s s.player1 m).isOk = true) ↔ sha256 m = c)
      ∧ (sha256 m ≠ c →
        CardRpg.reveal sha256 s s.player1 m = .error CardRpg.Error.invalidCommitment))
    ∧ (s.p2_commit = some c →
      (((CardRpg.reveal sha256 s s.player2 m).isOk = true) ↔ sha256 m = c)
      ∧ (sha256 m ≠ c →
        CardRpg.reveal sha256 s s.player2 m = .error CardRpg.Error.invalidCommitment)) := by
  have hne2 : ¬ s.player2 = s.player1 := fun h2 => hne h2.symm
  constructor
  · intro hc
    by_cases hm : sha256 m = c
    · have hOk : (CardRpg.reveal sha256 s s.player1 m).isOk = true := by
        simp [CardRpg.reveal, hph, hc, hm, revealFinish_isOk]
      exact ⟨⟨fun _ => hm, fun _ => hOk⟩, fun hm2 => absurd hm hm2⟩
    · have hErr : CardRpg.reveal sha256 s s.player1 m
          = .error CardRpg.Error.invalidCommitment := by
        simp [CardRpg.reveal, hph, hc, hm]
      refine ⟨?_, fun _ => hErr⟩
      rw [hErr]
      simp [Except.isOk, Except.toBool, hm]
  · intro hc
    by_cases hm : sha256 m = c
    · have hOk : (CardRpg.reveal sha256 s s.player2 m).isOk = true := by
        simp [CardRpg.reveal, hph, hne2, hc, hm, revealFinish_isOk]
      exact ⟨⟨fun _ => hm, fun _ => hOk⟩, fun hm2 => absurd hm hm2⟩
    · have hErr : CardRpg.reveal sha256 s s.player2 m
          = .error CardRpg.Error.invalidCommitment := by
        simp [CardRpg.reveal, hph, hne2, hc, hm]
      refine ⟨?_, fun _ => hErr⟩
      rw [hErr]
      simp [Except.isOk, Except.toBool, hm]

/-- Witness for C5: with the hash modelled as the constant function to `[3]`,
Player 1's reveal of any preimage succeeds against the stored commitment
`[3]` and Player 2's reveal fails with `InvalidCommitment` against the
stored commitment `[4]`. -/
theorem reveal_iff_hash_matches_witness :
    (CardRpg.revealExample.p1_commit = some [3] →
      (((CardRpg.reveal (fun _ => [3]) CardRpg.revealExample
            CardRpg.revealExample.player1 [8]).isOk = true)
        ↔ (fun _ : List Nat => [3]) [8] = [3])
      ∧ ((fun _ : List Nat => [3]) [8] ≠ [3] →
        CardRpg.reveal (fun _ => [3]) CardRpg.revealExample
            CardRpg.revealExample.player1 [8]
          = .error CardRpg.Error.invalidCommitment))
    ∧ (CardRpg.revealExample.p2_commit = some [3] →
      (((CardRpg.reveal (fun _ => [3]) CardRpg.revealExample
            CardRpg.revealExample.player2 [8]).isOk = true)
        ↔ (fun _ : List Nat => [3]) [8] = [3])
      ∧ ((fun _ : List Nat => [3]) [8] ≠ [3] →
        CardRpg.reveal (fun _ => [3]) CardRpg.revealExample
            CardRpg.revealExample.player2 [8]
          = .error CardRpg.Error.invalidCommitment)) :=
  reveal_iff_hash_matches (fun _ => [3]) CardRpg.revealExample [8] [3]
    (by decide) (by decide)

/-- C6: when the second reveal lands, the starting player is the pure
function of the entropy buffer stated by the specification: player 1 exactly
when the last byte of the hash of the buffer is even, player 2 otherwise,
and the phase advances to Playing. Determinism across repeated evaluation is
immediate because `starting_player_from_entropy` is a function of the buffer
alone. -/
theorem reveal_selects_starting_player (sha256 : List Nat → List Nat)
    (s : CardRpg.GameState) (m c : List Nat)
    (hph : s.phase = CardRpg.Phase.reveal)
    (hne : s.player1 ≠ s.player2)
    (hlen : (sha256 (s.shared_seed ++ m)).length = 32) :
    (s.p2_commit = some c → sha256 m = c → s.p1_revealed = true →
      ∃ s1, CardRpg.reveal sha256 s s.player2 m = .ok s1
        ∧ s1.active_player
            = CardRpg.starting_player_from_entropy sha256 (s.shared_seed ++ m)
                s.player1 s.player2
        ∧ s1.phase = CardRpg.Phase.playing)
    ∧ (s.p1_commit = some c → sha256 m = c → s.p2_revealed = true →
      ∃ s1, CardRpg.reveal sha256 s s.player1 m = .ok s1
        ∧ s1.active_player
            = CardRpg.starting_player_from_entropy sha256 (s.shared_seed ++ m)
                s.player1 s.player2
        ∧ s1.phase = CardRpg.Phase.playing) := by
  have hne2 : ¬ s.player2 = s.player1 := fun h2 => hne h2.symm
  have hlast : CardRpg.lastByteD (sha256 (s.shared_seed ++ m))
      = (sha256 (s.shared_seed ++ m)).getD 31 0 := by
    unfold CardRpg.lastByteD
    rw [hlen]
  constructor
  · intro hc hm hrev
    by_cases hpar : (sha256 (s.shared_seed ++ m)).getD 31 0 % 2 = 0
    all_goals simp only [List.getD_eq_getElem?_getD] at hpar
    · refine ⟨{s with
          p2_revealed := true
          shared_seed := s.shared_seed ++ m
          active_player := s.player1
          phase := CardRpg.Phase.playing}, ?_, ?_, rfl⟩
      · simp [CardRpg.reveal, CardRpg.revealFinish, hph, hne2, hc, hm, hrev, hpar]
      · simp [CardRpg.starting_player_from_entropy, hlast, hpar]
    · refine ⟨{s with
          p2_revealed := true
          shared_seed := s.shared_seed ++ m
          active_player := s.player2
          phase := CardRpg.Phase.playing}, ?_, ?_, rfl⟩
      · simp [CardRpg.reveal, CardRpg.revealFinish, hph, hne2, hc, hm, hrev, hpar]
      · simp [CardRpg.starting_player_from_entropy, hlast, hpar]
  · intro hc hm hrev
    by_cases hpar : (sha256 (s.shared_seed ++ m)).getD 31 0 % 2 = 0
    all_goals simp only [List.getD_eq_getElem?_getD] at hpar
    · refine ⟨{s with
          p1_revealed := true
          shared_seed := s.shared_seed ++ m
          active_player := s.player1
          phase := CardRpg.Phase.playing}, ?_, ?_, rfl⟩
      · simp [CardRpg.reveal, CardRpg.revealFinish, hph, hc, hm, hrev, hpar]
      · simp [CardRpg.starting_player_from_entropy, hlast, hpar]
    · refine ⟨{s with
          p1_revealed := true
          shared_seed := s.shared_seed ++ m
          active_player := s.player2
          phase := CardRpg.Phase.playing}, ?_, ?_, rfl⟩
      · simp [CardRpg.reveal, CardRpg.revealFinish, hph, hc, hm, hrev, hpar]
      · simp [CardRpg.starting_player_from_entropy, hlast, hpar]

/-- Witness for C6 with the hash modelled as the constant function to the
32-byte zero string: the last byte is 0 (even), so Player 1 starts. -/
theorem reveal_selects_starting_player_witness :
    ∃ s1, CardRpg.reveal (fun _ => List.replicate 32 0) CardRpg.secondRevealExample
        CardRpg.secondRevealExample.player2 [5] = .ok s1
      ∧ s1.active_player
          = CardRpg.starting_player_from_entropy (fun _ => List.replicate 32 0)
              (CardRpg.secondRevealExample.shared_seed ++ [5])
              CardRpg.secondRevealExample.player1 CardRpg.secondRevealExample.player2
      ∧ s1.phase = CardRpg.Phase.playing :=
  (reveal_selects_starting_player (fun _ => List.replicate 32 0)
    CardRpg.secondRevealExample [5] (List.replicate 32 0)
    (by decide) (by decide) (by decide)).1 (by decide) (by decide) (by decide)

/-- C9: for structurally well-formed proof and key components, a public-input
count that does not satisfy `len(public_inputs) + 1 = len(IC)` makes
`verify_groth16` fail with `InvalidPublicInputs`. The statement quantifies
over every possible implementation of the BN254 primitives, so the rejection
happens before any curve arithmetic is attempted. -/
theorem verify_groth16_rejects_bad_input_count (ops : Verifier.Bn254Ops)
    (vk : Verifier.VerificationKey) (proof : Verifier.Groth16Proof)
    (inputs : List (List Nat))
    (hpa : proof.pi_a.length = 2) (hpb : proof.pi_b.length = 4)
    (hpc : proof.pi_c.length = 2)
    (hal : vk.alpha.length = 2) (hbe : vk.beta.length = 4)
    (hga : vk.gamma.length = 4) (hde : vk.delta.length = 4)
    (hlen : inputs.length + 1 ≠ vk.ic.length) :
    Verifier.verify_groth16 ops vk proof inputs
      = .error Verifier.VerificationError.invalidPublicInputs := by
  simp [Verifier.verify_groth16, hpa, hpb, hpc, hal, hbe, hga, hde, hlen]

/-- Witness for C9 at the specification's example: a key with `len(IC) = 3`
and 3 public inputs (2 expected) is rejected with `InvalidPublicInputs`,
whatever the BN254 primitives do (here instantiated with the shipped
placeholder primitives). -/
theorem verify_groth16_rejects_bad_input_count_witness :
    Verifier.verify_groth16 Verifier.codeOps Verifier.vkIcThree Verifier.wfProof
        [[1], [2], [3]]
      = .error Verifier.VerificationError.invalidPublicInputs :=
  verify_groth16_rejects_bad_input_count Verifier.codeOps Verifier.vkIcThree
    Verifier.wfProof [[1], [2], [3]] rfl rfl rfl rfl rfl rfl rfl (by decide)

theorem computeContributionAux_codeOps (acc : List (List Nat))
    (icRest : List (List (List Nat))) (inputs : List (List Nat))
    (h : inputs.length ≤ icRest.length) :
    Verifier.computeContributionAux Verifier.codeOps acc icRest inputs = .ok acc := by
  induction inputs generalizing acc icRest with
  | nil => cases icRest <;> rfl
  | cons i rest ih =>
    cases icRest with
    | nil => simp at h
    | cons icPt icRest2 =>
      simp only [Verifier.computeContributionAux, Verifier.codeOps,
        Verifier.bn254_g1_mul, Verifier.bn254_g1_add]
      exact ih acc icRest2 (by simpa using h)

theorem codeOps_pairing_eq :
    Verifier.codeOps.pairing = Verifier.bn254_pairing_check := rfl

theorem negate_g1_point_id (point : List (List Nat)) (h : point.length = 2) :
    Verifier.negate_g1_point point = .ok point := by
  match point with
  | [x, y] => rfl

theorem bn254_pairing_check_wf (a b c d e f g h : List (List Nat))
    (ha : a.length = 2) (hb : b.length = 4) (hc : c.length = 2) (hd : d.length = 4)
    (he : e.length = 2) (hf : f.length = 4) (hg : g.length = 2) (hh : h.length = 4) :
    Verifier.bn254_pairing_check [a, b, c, d, e, f, g, h] = .ok true := by
  simp [Verifier.bn254_pairing_check, Verifier.validatePairingPoints,
    ha, hb, hc, hd, he, hf, hg, hh]

/-- C1 (code bug): with the BN254 primitives the pocker verifier actually
ships, `verify_groth16` returns `Ok(true)` for EVERY structurally
well-formed verification key, proof and public-input list — the pairing
placeholder unconditionally accepts — and `negate_g1_point` returns the
point with its y-coordinate unchanged instead of `(x, p − y)`. The claimed
pairing-product acceptance condition is therefore never evaluated. -/
theorem verify_groth16_accepts_all_wf
    (vk : Verifier.VerificationKey) (proof : Verifier.Groth16Proof)
    (inputs : List (List Nat)) (x y : List Nat)
    (hpa : proof.pi_a.length = 2) (hpb : proof.pi_b.length = 4)
    (hpc : proof.pi_c.length = 2)
    (hal : vk.alpha.length = 2) (hbe : vk.beta.length = 4)
    (hga : vk.gamma.length = 4) (hde : vk.delta.length = 4)
    (hic : inputs.length + 1 = vk.ic.length)
    (hicwf : ∀ pt ∈ vk.ic, pt.length = 2) :
    Verifier.verify_groth16 Verifier.codeOps vk proof inputs = .ok true
    ∧ Verifier.negate_g1_point [x, y] = .ok [x, y] := by
  refine ⟨?_, rfl⟩
  cases hics : vk.ic with
  | nil =>
    rw [hics] at hic
    simp at hic
  | cons ic0 icRest =>
    have h0 : ic0.length = 2 := hicwf ic0 (by rw [hics]; exact List.mem_cons_self ic0 icRest)
    have hrest : inputs.length ≤ icRest.length := by
      rw [hics] at hic
      simp only [List.length_cons] at hic
      omega
    have hcontrib : Verifier.compute_public_input_contribution Verifier.codeOps vk inputs
        = .ok ic0 := by
      unfold Verifier.compute_public_input_contribution
      rw [hics]
      exact computeContributionAux_codeOps ic0 icRest inputs hrest
    have hnegA := negate_g1_point_id vk.alpha hal
    have hnegI := negate_g1_point_id ic0 h0
    have hnegC := negate_g1_point_id proof.pi_c hpc
    have hpair := bn254_pairing_check_wf proof.pi_a proof.pi_b vk.alpha vk.beta
      ic0 vk.gamma proof.pi_c vk.delta hpa hpb hal hbe h0 hga hpc hde
    unfold Verifier.verify_groth16
    simp [hpa, hpb, hpc, hal, hbe, hga, hde, hic, hcontrib, hnegA, hnegI, hnegC,
      codeOps_pairing_eq, hpair]

/-- Witness for C1: the all-zero structurally well-formed key, proof and
two public inputs are accepted, and negation leaves a concrete point
unchanged. -/
theorem verify_groth16_accepts_all_wf_witness :
    Verifier.verify_groth16 Verifier.codeOps Verifier.vkIcThree Verifier.wfProof
        [[1], [2]] = .ok true
    ∧ Verifier.negate_g1_point [[5], [6]] = .ok [[5], [6]] :=
  verify_groth16_accepts_all_wf Verifier.vkIcThree Verifier.wfProof [[1], [2]]
    [5] [6] rfl rfl rfl rfl rfl rfl rfl (by decide)
    (by intro pt hpt
        simp only [Verifier.vkIcThree, Verifier.g1Zero, List.mem_cons,
          List.not_mem_nil, or_false] at hpt
        rcases hpt with h | h | h <;> rw [h] <;> rfl)

/-- C10: whenever the phase is not `Commit`, `submit_community_commitment`
succeeds — the entry point takes no caller identity and performs no
authorization check — and unconditionally replaces the stored community
commitment (even one already set, and in any later phase up to `Showdown`),
leaving every other field of the game record unchanged. -/
theorem submit_community_commitment_frame (g : Pocker.Game) (c : List Nat)
    (hph : g.phase ≠ Pocker.Phase.commit) :
    ∃ g1, Pocker.submit_community_commitment g c = .ok g1
      ∧ g1.community_commitment = some c
      ∧ g1.player1 = g.player1
      ∧ g1.player2 = g.player2
      ∧ g1.player1_points = g.player1_points
      ∧ g1.player2_points = g.player2_points
      ∧ g1.player1_stack = g.player1_stack
      ∧ g1.player2_stack = g.player2_stack
      ∧ g1.player1_bet = g.player1_bet
      ∧ g1.player2_bet = g.player2_bet
      ∧ g1.pot = g.pot
      ∧ g1.player1_hole_commitment = g.player1_hole_commitment
      ∧ g1.player2_hole_commitment = g.player2_hole_commitment
      ∧ g1.community_cards = g.community_cards
      ∧ g1.community_revealed = g.community_revealed
      ∧ g1.current_actor = g.current_actor
      ∧ g1.last_action = g.last_action
      ∧ g1.last_raise_amount = g.last_raise_amount
      ∧ g1.actions_this_round = g.actions_this_round
      ∧ g1.player1_revealed = g.player1_revealed
      ∧ g1.player2_revealed = g.player2_revealed
      ∧ g1.player1_ranking = g.player1_ranking
      ∧ g1.player2_ranking = g.player2_ranking
      ∧ g1.winner = g.winner
      ∧ g1.phase = g.phase := by
  refine ⟨{g with community_commitment := some c}, ?_, rfl, rfl, rfl, rfl, rfl,
    rfl, rfl, rfl, rfl, rfl, rfl, rfl, rfl, rfl, rfl, rfl, rfl, rfl, rfl, rfl,
    rfl, rfl, rfl, rfl⟩
  simp [Pocker.submit_community_commitment, hph]

/-- Witness for C10 in the Showdown phase with a community commitment
already stored: the call overwrites it and leaves the phase, pot and winner
untouched. -/
theorem submit_community_commitment_frame_witness :
    ∃ g1, Pocker.submit_community_commitment Pocker.showdownGame [6] = .ok g1
      ∧ g1.community_commitment = some [6]
      ∧ g1.phase = Pocker.Phase.showdown
      ∧ g1.pot = 0
      ∧ g1.winner = none := by
  obtain ⟨g1, hok, hcc, -, -, -, -, -, -, -, -, hpot, -, -, -, -, -, -, -, -,
    -, -, -, -, hwin, hph⟩ :=
    submit_community_commitment_frame Pocker.showdownGame [6] (by decide)
  refine ⟨g1, hok, hcc, ?_, ?_, ?_⟩
  · rw [hph]; rfl
  · rw [hpot]; rfl
  · rw [hwin]; rfl

end Spec2Proof
